import Mathlib

/-!
Verification development for the conditional-access descrambling core of
dantto4k.  The definitions below are a shallow embedding of the C++ sources
src/acasCard.cpp, src/acasHandler.cpp and src/ioThread.h.

Modelling conventions:
* Bytes are Nat values; byte strings are List Nat.
* SHA-256 and the AES-CTR engine live outside the four source files, so they
  are taken as explicit function parameters of the embedded code; the claims
  only depend on how the code composes them with slicing and XOR.
* Each smart-card exchange is one ApduExchange record: the transport status
  returned by transmit, the status word SW1SW2 of the parsed response, and the
  response data field.  The ApduResponse class itself is outside src, so
  (modelled from the spec) a response is SUCCESS iff SW1SW2 = 0x9000.
* The C++ slices response data with unchecked iterator arithmetic
  (begin() + k).  The embedding totalizes those slices with List.take and
  List.drop, which silently truncate; where a claim hinges on short data this
  is discussed at the claim.
-/

/-- Transport status for a successful transmit (PC/SC SCARD_S_SUCCESS). -/
def SCARD_S_SUCCESS : Nat := 0

/-- Transport status: the card was reset (PC/SC SCARD_W_RESET_CARD). -/
def SCARD_W_RESET_CARD : Nat := 0x80100068

/-- Transport status: invalid handle (PC/SC SCARD_E_INVALID_HANDLE). -/
def SCARD_E_INVALID_HANDLE : Nat := 0x80100003

/-- One smart-card exchange: transport status of transmit, status word of the
response, and the response data field. -/
structure ApduExchange where
  status : Nat
  sw : Nat
  data : List Nat
deriving DecidableEq, Repr

/-- Modelled from the spec: ApduResponse.isSuccess, true iff SW1 SW2 = 0x9000
(the ApduResponse class is outside the provided sources). -/
def ApduExchange.isSuccess (r : ApduExchange) : Bool :=
  r.sw == 0x9000

namespace AcasCard

/-- The (odd, even) control-word pair produced by ECM resolution, mirroring
AcasCard::DecryptionKey (two 16-byte halves). -/
structure DecryptionKey where
  odd : List Nat
  even : List Nat
deriving DecidableEq, Repr

/-- Embedding of AcasCard::getA0AuthKcl (acasCard.cpp lines 16-79).  The
random nonce a0init and the card exchange are inputs; sha is the external
SHA256::hash.  Returns some kcl when the C++ returns true and writes kcl to
its output parameter, none when it returns false.  The C++ compares the
computed hash against a0hash with std::equal over hash.size() elements, which
the embedding renders as comparison with a0hash truncated to that length. -/
def getA0AuthKcl (sha : List Nat → List Nat) (masterKey a0init : List Nat)
    (a0resp : ApduExchange) : Option (List Nat) :=
  if a0resp.status ≠ SCARD_S_SUCCESS then none
  else if a0resp.isSuccess = false then none
  else
    let a0data := a0resp.data
    let a0response := (a0data.drop 0x06).take 0x08
    let a0hash := a0data.drop 0x0e
    let kcl := sha (masterKey ++ a0init ++ a0response)
    let hash := sha (kcl ++ a0init)
    if hash = a0hash.take hash.length then some kcl else none

/-- The key computation at the tail of AcasCard::ecm (acasCard.cpp lines
128-152): hash = sha(kcl concat ecmInit), XOR with the response bytes from
offset 6, split into the odd and even halves. -/
def ecmDeriveKey (sha : List Nat → List Nat) (kcl ecmBlob respData : List Nat) :
    DecryptionKey :=
  let ecmResponse := respData.drop 0x06
  let ecmInit := (ecmBlob.drop 0x04).take 0x17
  let hash := sha (kcl ++ ecmInit)
  let cw := List.zipWith (fun a b => a ^^^ b) hash ecmResponse
  { odd := cw.take 0x10, even := (cw.drop 0x10).take 0x10 }

/-- One attempt of the retry loop in AcasCard::ecm: the fresh random a0init
nonce, the A0 exchange, and the 34 exchange the card would answer on this
attempt. -/
structure EcmAttempt where
  a0init : List Nat
  a0resp : ApduExchange
  ecmResp : ApduExchange
deriving Repr

/-- Embedding of the goto-retry loop of AcasCard::ecm (acasCard.cpp lines
89-155).  The attempt list is the oracle of card answers, retryCount mirrors
the C++ counter.  Returns the caller-visible result (the C++ bool plus the
output key, as an Option) paired with the number of attempts consumed.  The
empty-list case is unreachable when at least three attempts are supplied,
since the retry budget stops the loop after the third attempt. -/
def ecmLoop (sha : List Nat → List Nat) (masterKey ecmBlob : List Nat) :
    List EcmAttempt → Nat → Option DecryptionKey × Nat
  | [], _ => (none, 0)
  | att :: rest, retryCount =>
    match getA0AuthKcl sha masterKey att.a0init att.a0resp with
    | none =>
      if retryCount > 1 then (none, 1)
      else
        let r := ecmLoop sha masterKey ecmBlob rest (retryCount + 1)
        (r.1, r.2 + 1)
    | some kcl =>
      if att.ecmResp.status ≠ SCARD_S_SUCCESS then
        if att.ecmResp.status = SCARD_W_RESET_CARD ∨
            att.ecmResp.status = SCARD_E_INVALID_HANDLE then
          if retryCount > 1 then (none, 1)
          else
            let r := ecmLoop sha masterKey ecmBlob rest (retryCount + 1)
            (r.1, r.2 + 1)
        else (none, 1)
      else if att.ecmResp.isSuccess = false then (none, 1)
      else (some (ecmDeriveKey sha kcl ecmBlob att.ecmResp.data), 1)

/-- Embedding of AcasCard::ecm (acasCard.cpp lines 81-161): the null-card
early return, then the retry loop starting at retryCount = 0.  Only the
caller-visible Option result is returned. -/
def ecm (sha : List Nat → List Nat) (masterKey : List Nat) (hasCard : Bool)
    (ecmBlob : List Nat) (attempts : List EcmAttempt) : Option DecryptionKey :=
  if hasCard then (ecmLoop sha masterKey ecmBlob attempts 0).1 else none

/-- A failure of one attempt that the retry loop treats as retriable: the A0
exchange failed (transport failure, SW other than 0x9000, or hash mismatch),
or the A0 succeeded and the 34 transmit returned RESET_CARD or
INVALID_HANDLE. -/
def retriableFailure (sha : List Nat → List Nat) (masterKey : List Nat)
    (att : EcmAttempt) : Prop :=
  getA0AuthKcl sha masterKey att.a0init att.a0resp = none ∨
  (att.ecmResp.status ≠ SCARD_S_SUCCESS ∧
    (att.ecmResp.status = SCARD_W_RESET_CARD ∨
     att.ecmResp.status = SCARD_E_INVALID_HANDLE))

end AcasCard

/-- Modelled from the spec: the MmtTlv::EncryptionFlag enumeration (the MmtTlv
headers are outside the provided sources; the spec lists the three values
EVEN, ODD, UNSCRAMBLED). -/
inductive EncryptionFlag where
  | UNSCRAMBLED
  | EVEN
  | ODD
deriving DecidableEq, Repr

namespace AcasHandler

/-- The wait bound of the parity-flip synchronization in
AcasHandler::getDecryptionKey (acasHandler.cpp line 103,
std::chrono::seconds(10)). -/
def parityFlipWaitSeconds : Nat := 10

/-- Embedding of AcasHandler::getDecryptionKey (acasHandler.cpp lines
96-123).  State fields of the handler appear as arguments: ecmReady and the
last served key type, plus the published key pair.  The condition-variable
wait with its 10 second bound is rendered by the boolean queueEmptied, true
iff the ECM queue became empty within the timeout; it is consulted only when
the requested type differs from the last served one, exactly as in the code.
The assignment lastPayloadKeyType = keyType performed on the serving path is
a state update and is not part of the returned value. -/
def getDecryptionKey (ecmReady : Bool) (lastPayloadKeyType : EncryptionFlag)
    (keyType : EncryptionFlag) (queueEmptied : Bool)
    (key : AcasCard.DecryptionKey) : Option (List Nat) :=
  if ecmReady = false then none
  else if lastPayloadKeyType ≠ keyType ∧ queueEmptied = false then none
  else if keyType = EncryptionFlag.EVEN then some key.even
  else some key.odd

/-- Embedding of AcasHandler::onEcm (acasHandler.cpp lines 34-48) acting on
the handler state (lastEcm, queue, ecmReady): a duplicate of the last ECM is
dropped, otherwise the ECM is enqueued and ecmReady is set.  The returned
triple is the updated state; the C++ bool return is always true. -/
def onEcm (lastEcm : List Nat) (queue : List (List Nat)) (ecmReady : Bool)
    (e : List Nat) : List Nat × List (List Nat) × Bool :=
  if lastEcm = e then (lastEcm, queue, ecmReady)
  else (e, queue ++ [e], true)

/-- One iteration of AcasHandler::worker on a non-empty queue (acasHandler.cpp
lines 126-152): the front ECM is resolved through AcasCard::ecm (its result is
the cardResult argument), the key is published only on success, and the front
entry is popped afterwards in every case. -/
def workerStep (cardResult : Option AcasCard.DecryptionKey)
    (queue : List (List Nat)) (key : AcasCard.DecryptionKey) :
    List (List Nat) × AcasCard.DecryptionKey :=
  match cardResult with
  | some k => (queue.drop 1, k)
  | none => (queue.drop 1, key)

/-- The IV assembled by AcasHandler::decrypt (acasHandler.cpp lines 56-60):
packet id big-endian in bytes 0-1, packet sequence number big-endian in bytes
2-5, the ten remaining bytes zero. -/
def ivBytes (packetId packetSequenceNumber : Nat) : List Nat :=
  [packetId / 256 % 256, packetId % 256,
   packetSequenceNumber / 16777216 % 256, packetSequenceNumber / 65536 % 256,
   packetSequenceNumber / 256 % 256, packetSequenceNumber % 256,
   0, 0, 0, 0, 0, 0, 0, 0, 0, 0]

/-- Embedding of AcasHandler::decrypt (acasHandler.cpp lines 50-90).  The
AES-CTR engine is outside the provided sources and enters as the cipher
parameter (both C++ back-ends transform payload bytes from offset 8 in place
with the selected key and the assembled IV).  Returns the C++ bool result and
the payload after the call. -/
def decrypt (cipher : List Nat → List Nat → List Nat → List Nat)
    (ecmReady : Bool) (lastPayloadKeyType : EncryptionFlag)
    (queueEmptied : Bool) (key : AcasCard.DecryptionKey)
    (packetId packetSequenceNumber : Nat) (encryptionFlag : EncryptionFlag)
    (payload : List Nat) : Bool × List Nat :=
  match getDecryptionKey ecmReady lastPayloadKeyType encryptionFlag
      queueEmptied key with
  | none => (false, payload)
  | some k =>
    let iv := ivBytes packetId packetSequenceNumber
    (true, payload.take 8 ++ cipher k iv (payload.drop 8))

end AcasHandler

namespace IOThread

/-- NUM_BUFFERS from ioThread.h line 32. -/
def NUM_BUFFERS : Nat := 3

/-- SPILL_OVER_AREA_SIZE from ioThread.h line 33 (1 MiB). -/
def SPILL_OVER_AREA_SIZE : Nat := 1024 * 1024

/-- NEW_DATA_AREA_SIZE from ioThread.h line 34 (16 MiB). -/
def NEW_DATA_AREA_SIZE : Nat := 1024 * 1024 * 16

/-- BUFFER_SIZE from ioThread.h line 35 (17 MiB). -/
def BUFFER_SIZE : Nat := SPILL_OVER_AREA_SIZE + NEW_DATA_AREA_SIZE

/-- The defensive clamp of step 4 of IOThread::threadFunc (ioThread.h lines
102-108): the number of leftover bytes actually copied to the start of the
work buffer. -/
def clampRemaining (remainingSize : Nat) : Nat :=
  if remainingSize > SPILL_OVER_AREA_SIZE then SPILL_OVER_AREA_SIZE
  else remainingSize

/-- Sequential embedding of the IOThread::threadFunc producer loop (ioThread.h
lines 77-127) interacting with a consumer.  The consumer is a function giving,
for each filled view it is handed, the length of the suffix it reports back as
remaining_view (per the consumer contract the remaining view points into the
presented buffer, so it is determined by its length); the reported length is
capped at the view length, since a view cannot outgrow its buffer.  The
leftover argument is the remaining view reported for the previous iteration
([] initially).  Each iteration clamps and copies the leftover, reads the next
chunk of up to NEW_DATA_AREA_SIZE bytes from the stream, and presents
leftover-then-chunk as the filled view; at EOF (a zero-byte read with the
stream exhausted) the code pushes an empty sentinel and stops, dropping the
copied leftover.  Returns the list of consumed prefixes (each filled view
minus the reported remaining view) together with the leftover bytes pending
when EOF was reached. -/
def threadFuncLoop (consume : List Nat → Nat) :
    Nat → List Nat → List Nat → List (List Nat) × List Nat
  | 0, leftover, _ => ([], leftover.take (clampRemaining leftover.length))
  | fuel + 1, leftover, stream =>
    let keep := leftover.take (clampRemaining leftover.length)
    if stream = [] then ([], keep)
    else
      let chunk := stream.take NEW_DATA_AREA_SIZE
      let view := keep ++ chunk
      let r := min (consume view) view.length
      let consumed := view.take (view.length - r)
      let remaining := view.drop (view.length - r)
      let next := threadFuncLoop consume fuel remaining
        (stream.drop NEW_DATA_AREA_SIZE)
      (consumed :: next.1, next.2)

/-- The producer loop run on a finite input stream, starting with no
leftover: the fuel stream.length always suffices, because every iteration
that does not stop removes at least one byte (NEW_DATA_AREA_SIZE many) from
the stream, and the fuel-exhausted base case coincides with the EOF case it
can only be reached in. -/
def threadFunc (consume : List Nat → Nat) (stream : List Nat) :
    List (List Nat) × List Nat :=
  threadFuncLoop consume stream.length [] stream

end IOThread

/-!
Concrete sample data for witnesses and counterexamples.  sha0 is a stand-in
for the external SHA256::hash with the one property the embedding relies on,
a 32-byte digest; stubCipher is a stand-in for the external AES-CTR engine.
-/

/-- A concrete 32-byte-digest hash function used to instantiate the sha
parameter in witnesses. -/
def sha0 (l : List Nat) : List Nat :=
  List.replicate 31 0 ++ [l.length % 256]

/-- A concrete payload-altering cipher standing in for the external AES-CTR
engine in counterexamples. -/
def stubCipher (_key _iv data : List Nat) : List Nat :=
  data.map (fun b => (b + 1) % 256)

/-- Sample 32-byte master key. -/
def mkSample : List Nat := List.replicate 32 0xAA

/-- Sample 8-byte a0init nonce. -/
def a0initSample : List Nat := List.replicate 8 0x01

/-- A 46-byte A0 response data field whose trailing 32 bytes equal the
authentication tag sha0 would compute, so the A0 exchange authenticates. -/
def a0dataSample : List Nat := List.replicate 45 0 ++ [40]

/-- A successful, authenticating A0 exchange for sha0, mkSample and
a0initSample. -/
def a0respSample : ApduExchange :=
  { status := 0, sw := 0x9000, data := a0dataSample }

/-- The Kcl that sha0 derives from mkSample, a0initSample and the card nonce
of a0dataSample (the digest of a 48-byte input). -/
def kclSample : List Nat := List.replicate 31 0 ++ [48]

/-- Sample 27-byte ECM blob. -/
def blobSample : List Nat := List.replicate 27 0x05

/-- Sample 38-byte data field of a successful 34 response. -/
def ecmRespData38 : List Nat := List.replicate 38 0x0F

/-- An attempt in which both the A0 and the 34 exchange succeed. -/
def attGood : AcasCard.EcmAttempt :=
  { a0init := a0initSample, a0resp := a0respSample,
    ecmResp := { status := 0, sw := 0x9000, data := ecmRespData38 } }

/-- An attempt whose A0 transmit fails at the transport layer. -/
def attA0Fail : AcasCard.EcmAttempt :=
  { a0init := a0initSample,
    a0resp := { status := 1, sw := 0x9000, data := a0dataSample },
    ecmResp := { status := 0, sw := 0x9000, data := ecmRespData38 } }

/-- An attempt whose A0 response carries status word 0x6700 instead of
0x9000, the rest as in attGood. -/
def attA0SwRej : AcasCard.EcmAttempt :=
  { a0init := a0initSample,
    a0resp := { status := 0, sw := 0x6700, data := a0dataSample },
    ecmResp := { status := 0, sw := 0x9000, data := ecmRespData38 } }

/-- An attempt whose A0 succeeds and whose 34 transmit reports a card
reset. -/
def attReset : AcasCard.EcmAttempt :=
  { a0init := a0initSample, a0resp := a0respSample,
    ecmResp := { status := SCARD_W_RESET_CARD, sw := 0, data := [] } }

/-- An attempt whose A0 succeeds and whose 34 response carries status word
0x6A88 instead of 0x9000. -/
def attRej34 : AcasCard.EcmAttempt :=
  { a0init := a0initSample, a0resp := a0respSample,
    ecmResp := { status := 0, sw := 0x6A88, data := [] } }

/-- An attempt whose A0 succeeds and whose 34 response reports success with
an empty data field, far below the 0x06 + 32 bytes the slicing assumes. -/
def attShort34 : AcasCard.EcmAttempt :=
  { a0init := a0initSample, a0resp := a0respSample,
    ecmResp := { status := 0, sw := 0x9000, data := [] } }

/-- The default-initialized key pair the handler holds before any
publication (modelled from the spec: DecryptionKey is a pair of 16-byte
halves; the acasHandler header with the member declaration is outside the
provided sources). -/
def zeroKey : AcasCard.DecryptionKey :=
  { odd := List.replicate 16 0, even := List.replicate 16 0 }

/-- A sample published key pair with distinct halves. -/
def keySample : AcasCard.DecryptionKey :=
  { odd := List.replicate 16 7, even := List.replicate 16 9 }

/-- A sample ECM blob for the handler intake. -/
def ecmSample : List Nat := List.replicate 30 1

/-- A sample 12-byte packet payload: 8 clear header bytes and 4 ciphertext
bytes. -/
def payloadSample : List Nat := List.replicate 12 0

/-- A consumer that always reports a 1-byte remaining view. -/
def consumeOne : List Nat → Nat := fun _ => 1

/-- A consumer that always consumes its whole view. -/
def consumeAll : List Nat → Nat := fun _ => 0

/-- C1: for every A0 exchange answered with transport success, status word
0x9000 and a full-length data field, getA0AuthKcl computes
kcl = sha(MasterKey concat a0init concat a0response) with a0response the
data bytes [0x06, 0x0E), and emits kcl (returns it to the caller) if and
only if sha(kcl concat a0init) equals the returned a0hash, the data bytes
[0x0E, end); on a mismatch it fails without emitting a key. -/
theorem acasCard_getA0AuthKcl_auth (sha : List Nat → List Nat)
    (hsha : ∀ l, (sha l).length = 32) (masterKey a0init : List Nat)
    (a0resp : ApduExchange) (hst : a0resp.status = SCARD_S_SUCCESS)
    (hsw : a0resp.sw = 0x9000) (hlen : a0resp.data.length = 0x0e + 32) :
    AcasCard.getA0AuthKcl sha masterKey a0init a0resp =
      (if sha (sha (masterKey ++ a0init ++ (a0resp.data.drop 0x06).take 0x08)
              ++ a0init) = a0resp.data.drop 0x0e
       then some (sha (masterKey ++ a0init ++ (a0resp.data.drop 0x06).take 0x08))
       else none) := by
  have htake : (a0resp.data.drop 0x0e).take
      (sha (sha (masterKey ++ a0init ++ (a0resp.data.drop 0x06).take 0x08)
        ++ a0init)).length = a0resp.data.drop 0x0e := by
    apply List.take_of_length_le
    rw [hsha]
    simp [List.length_drop, hlen]
  simp only [AcasCard.getA0AuthKcl, hst, SCARD_S_SUCCESS, ne_eq,
    not_true_eq_false, if_false, ApduExchange.isSuccess, hsw, beq_self_eq_true,
    if_true, htake]
  simp

/-- Witness for C1 at concrete inputs: the hypotheses hold for sha0 and
a0respSample, and the exchange emits kclSample because the tag matches. -/
theorem acasCard_getA0AuthKcl_auth_witness :
    a0respSample.status = SCARD_S_SUCCESS ∧ a0respSample.sw = 0x9000 ∧
    a0respSample.data.length = 0x0e + 32 ∧
    AcasCard.getA0AuthKcl sha0 mkSample a0initSample a0respSample =
      (if sha0 (sha0 (mkSample ++ a0initSample ++
              (a0respSample.data.drop 0x06).take 0x08) ++ a0initSample)
          = a0respSample.data.drop 0x0e
       then some (sha0 (mkSample ++ a0initSample ++
              (a0respSample.data.drop 0x06).take 0x08))
       else none) :=
  ⟨rfl, rfl, by decide,
    acasCard_getA0AuthKcl_auth sha0
      (fun l => by simp [sha0])
      mkSample a0initSample a0respSample rfl rfl (by decide)⟩

/-- C2: for every successful run of AcasCard::ecm in which the first attempt
authenticates with session key kcl and the 34 exchange succeeds with a
full-length data field, the output key pair satisfies
odd concat even = sha(kcl concat ecmInit) XOR ecmResponse, with ecmInit the
ECM bytes [0x04, 0x04 + 0x17) and ecmResponse the response data bytes from
0x06 on. -/
theorem acasCard_ecm_controlword (sha : List Nat → List Nat)
    (hsha : ∀ l, (sha l).length = 32) (masterKey ecmBlob : List Nat)
    (_hblob : 27 ≤ ecmBlob.length) (att : AcasCard.EcmAttempt)
    (rest : List AcasCard.EcmAttempt) (kcl : List Nat)
    (hA0 : AcasCard.getA0AuthKcl sha masterKey att.a0init att.a0resp = some kcl)
    (hst : att.ecmResp.status = SCARD_S_SUCCESS)
    (hsw : att.ecmResp.sw = 0x9000)
    (hlen : att.ecmResp.data.length = 0x06 + 32) :
    ∃ k, AcasCard.ecm sha masterKey true ecmBlob (att :: rest) = some k ∧
      k.odd ++ k.even =
        List.zipWith (fun a b => a ^^^ b)
          (sha (kcl ++ (ecmBlob.drop 0x04).take 0x17))
          (att.ecmResp.data.drop 0x06) := by
  refine ⟨AcasCard.ecmDeriveKey sha kcl ecmBlob att.ecmResp.data, ?_, ?_⟩
  · simp only [AcasCard.ecm, if_true, AcasCard.ecmLoop, hA0, hst,
      SCARD_S_SUCCESS, ne_eq, not_true_eq_false, if_false,
      ApduExchange.isSuccess, hsw]
    simp
  · have hcw : (List.zipWith (fun a b => a ^^^ b)
        (sha (kcl ++ (ecmBlob.drop 0x04).take 0x17))
        (att.ecmResp.data.drop 0x06)).length = 32 := by
      rw [List.length_zipWith, hsha]
      simp [List.length_drop, hlen]
    simp only [AcasCard.ecmDeriveKey]
    generalize hgen : List.zipWith (fun a b => a ^^^ b)
      (sha (kcl ++ (ecmBlob.drop 0x04).take 0x17))
      (att.ecmResp.data.drop 0x06) = cw at hcw ⊢
    have h1 : (cw.drop 0x10).take 0x10 = cw.drop 0x10 :=
      List.take_of_length_le (by simp [List.length_drop, hcw])
    rw [h1]
    exact List.take_append_drop 0x10 cw

/-- Witness for C2 at concrete inputs: the first attempt attGood
authenticates with kclSample and yields a key whose halves concatenate to
the XOR of the sha0 digest with the response bytes. -/
theorem acasCard_ecm_controlword_witness :
    27 ≤ blobSample.length ∧
    AcasCard.getA0AuthKcl sha0 mkSample attGood.a0init attGood.a0resp
      = some kclSample ∧
    ∃ k, AcasCard.ecm sha0 mkSample true blobSample [attGood] = some k ∧
      k.odd ++ k.even =
        List.zipWith (fun a b => a ^^^ b)
          (sha0 (kclSample ++ (blobSample.drop 0x04).take 0x17))
          (attGood.ecmResp.data.drop 0x06) :=
  ⟨by decide, by decide,
    acasCard_ecm_controlword sha0 (fun l => by simp [sha0]) mkSample
      blobSample (by decide) attGood [] kclSample (by decide) rfl rfl
      (by decide)⟩

/-- The attempt counter of the retry loop never lets more than three attempts
be consumed: each failure path either stops after the current attempt or
recurses with an incremented counter, and a counter above 1 stops. -/
theorem ecmLoop_used_le (sha : List Nat → List Nat)
    (masterKey ecmBlob : List Nat) :
    ∀ (attempts : List AcasCard.EcmAttempt) (retryCount : Nat),
      (AcasCard.ecmLoop sha masterKey ecmBlob attempts retryCount).2
        ≤ 3 - min retryCount 2 := by
  intro attempts
  induction attempts with
  | nil =>
    intro rc
    simp [AcasCard.ecmLoop]
  | cons att rest ih =>
    intro rc
    have hmin : min rc 2 ≤ 2 := Nat.min_le_right _ _
    cases hA0 : AcasCard.getA0AuthKcl sha masterKey att.a0init att.a0resp with
    | none =>
      by_cases hrc : rc > 1
      · simp only [AcasCard.ecmLoop, hA0, if_pos hrc]
        omega
      · simp only [AcasCard.ecmLoop, hA0, if_neg hrc]
        have := ih (rc + 1)
        omega
    | some kcl =>
      by_cases hst : att.ecmResp.status ≠ SCARD_S_SUCCESS
      · by_cases hr : att.ecmResp.status = SCARD_W_RESET_CARD ∨
            att.ecmResp.status = SCARD_E_INVALID_HANDLE
        · by_cases hrc : rc > 1
          · simp only [AcasCard.ecmLoop, hA0, if_pos hst, if_pos hr,
              if_pos hrc]
            omega
          · simp only [AcasCard.ecmLoop, hA0, if_pos hst, if_pos hr,
              if_neg hrc]
            have := ih (rc + 1)
            omega
        · simp only [AcasCard.ecmLoop, hA0, if_pos hst, if_neg hr]
          omega
      · by_cases hsw : att.ecmResp.isSuccess = false
        · simp only [AcasCard.ecmLoop, hA0, if_neg hst, if_pos hsw]
          omega
        · simp only [AcasCard.ecmLoop, hA0, if_neg hst, if_neg hsw]
          omega

/-- A retriable failure with retry budget left consumes the current attempt
and redoes everything, A0 included, on the remaining attempts with the
counter incremented. -/
theorem ecmLoop_retry_step (sha : List Nat → List Nat)
    (masterKey ecmBlob : List Nat) (att : AcasCard.EcmAttempt)
    (rest : List AcasCard.EcmAttempt) (rc : Nat)
    (h : AcasCard.retriableFailure sha masterKey att) (hrc : rc ≤ 1) :
    AcasCard.ecmLoop sha masterKey ecmBlob (att :: rest) rc =
      ((AcasCard.ecmLoop sha masterKey ecmBlob rest (rc + 1)).1,
       (AcasCard.ecmLoop sha masterKey ecmBlob rest (rc + 1)).2 + 1) := by
  have hrc2 : ¬ rc > 1 := by omega
  rcases h with hA0 | ⟨hst, hr⟩
  · simp only [AcasCard.ecmLoop, hA0, if_neg hrc2]
  · cases hA0 : AcasCard.getA0AuthKcl sha masterKey att.a0init att.a0resp with
    | none => simp only [AcasCard.ecmLoop, hA0, if_neg hrc2]
    | some kcl =>
      simp only [AcasCard.ecmLoop, hA0, if_pos hst, if_pos hr, if_neg hrc2]

/-- A retriable failure with the counter already above 1 makes the call fail
after the current attempt. -/
theorem ecmLoop_budget_stop (sha : List Nat → List Nat)
    (masterKey ecmBlob : List Nat) (att : AcasCard.EcmAttempt)
    (rest : List AcasCard.EcmAttempt) (rc : Nat)
    (h : AcasCard.retriableFailure sha masterKey att) (hrc : 1 < rc) :
    AcasCard.ecmLoop sha masterKey ecmBlob (att :: rest) rc = (none, 1) := by
  rcases h with hA0 | ⟨hst, hr⟩
  · simp only [AcasCard.ecmLoop, hA0, if_pos hrc]
  · cases hA0 : AcasCard.getA0AuthKcl sha masterKey att.a0init att.a0resp with
    | none => simp only [AcasCard.ecmLoop, hA0, if_pos hrc]
    | some kcl =>
      simp only [AcasCard.ecmLoop, hA0, if_pos hst, if_pos hr, if_pos hrc]

/-- C3: one call of AcasCard::ecm performs at most 2 retries over the A0 and
34 paths combined (at most 3 attempts are consumed for any oracle of card
answers), a retry being triggered by an A0 failure or by RESET_CARD or
INVALID_HANDLE on the 34 command; when three retriable failures occur in a
row, the third failure finds the counter already above 1 and the call fails
after exactly 3 attempts instead of retrying again. -/
theorem acasCard_ecm_retry_budget (sha : List Nat → List Nat)
    (masterKey ecmBlob : List Nat) (a1 a2 a3 : AcasCard.EcmAttempt)
    (rest : List AcasCard.EcmAttempt)
    (h1 : AcasCard.retriableFailure sha masterKey a1)
    (h2 : AcasCard.retriableFailure sha masterKey a2)
    (h3 : AcasCard.retriableFailure sha masterKey a3) :
    (∀ attempts : List AcasCard.EcmAttempt,
      (AcasCard.ecmLoop sha masterKey ecmBlob attempts 0).2 ≤ 3) ∧
    AcasCard.ecmLoop sha masterKey ecmBlob (a1 :: a2 :: a3 :: rest) 0
      = (none, 3) := by
  constructor
  · intro attempts
    have := ecmLoop_used_le sha masterKey ecmBlob attempts 0
    omega
  · rw [ecmLoop_retry_step sha masterKey ecmBlob a1 _ 0 h1 (by omega),
      ecmLoop_retry_step sha masterKey ecmBlob a2 _ 1 h2 (by omega),
      ecmLoop_budget_stop sha masterKey ecmBlob a3 _ 2 h3 (by omega)]

/-- Witness for C3 at concrete inputs: three attempts that fail retriably (an
A0 transport failure, a card reset on 34, an A0 transport failure) exhaust
the budget with exactly 3 attempts and a failed call. -/
theorem acasCard_ecm_retry_budget_witness :
    (AcasCard.ecmLoop sha0 mkSample blobSample [] 0).2 ≤ 3 ∧
    AcasCard.ecmLoop sha0 mkSample blobSample [attA0Fail, attReset, attA0Fail] 0
      = (none, 3) :=
  ⟨(acasCard_ecm_retry_budget sha0 mkSample blobSample attA0Fail attReset
      attA0Fail [] (Or.inl (by decide)) (Or.inr (by decide))
      (Or.inl (by decide))).1 [],
   (acasCard_ecm_retry_budget sha0 mkSample blobSample attA0Fail attReset
      attA0Fail [] (Or.inl (by decide)) (Or.inr (by decide))
      (Or.inl (by decide))).2⟩

/-- C4 counterexample: the claim is false on the code in two ways.  First, a
status word other than 0x9000 on the A0 command does not make the call fail
without retry: with attA0SwRej (A0 answered with SW 0x6700) followed by a
fully successful attempt, the call retries and succeeds, consuming 2
attempts.  Second, the outcome of an SW failure on the 34 command is the
caller-visible value none, identical to the outcome of an exhausted retry
budget, so the two failures are not distinguishable to the caller. -/
theorem acasCard_ecm_sw_reject_cex :
    (AcasCard.ecmLoop sha0 mkSample blobSample [attA0SwRej, attGood] 0).2 = 2 ∧
    (AcasCard.ecmLoop sha0 mkSample blobSample [attA0SwRej, attGood] 0).1
      ≠ none ∧
    (AcasCard.ecmLoop sha0 mkSample blobSample [attRej34] 0).1 =
      (AcasCard.ecmLoop sha0 mkSample blobSample
        [attReset, attReset, attReset] 0).1 := by
  refine ⟨by decide, by decide, ?_⟩
  decide

/-- C4 as amended: a status word other than 0x9000 on the 34 command (after a
successful A0) makes the call fail after the current attempt with no retry,
while a status word other than 0x9000 on the A0 command is an A0 failure and
is retried while budget remains; in both cases, as for budget exhaustion,
the caller-visible result is the same false (none), the code returning a
plain bool with no CardRejected or CardUnavailable distinction. -/
theorem acasCard_ecm_sw_handling (sha : List Nat → List Nat)
    (masterKey ecmBlob : List Nat) (att : AcasCard.EcmAttempt)
    (rest : List AcasCard.EcmAttempt) (rc : Nat) (kcl : List Nat)
    (hA0 : AcasCard.getA0AuthKcl sha masterKey att.a0init att.a0resp
      = some kcl)
    (hst : att.ecmResp.status = SCARD_S_SUCCESS)
    (hsw : att.ecmResp.sw ≠ 0x9000) :
    AcasCard.ecmLoop sha masterKey ecmBlob (att :: rest) rc = (none, 1) ∧
    (∀ (att2 : AcasCard.EcmAttempt) (rest2 : List AcasCard.EcmAttempt),
      att2.a0resp.sw ≠ 0x9000 →
        AcasCard.ecmLoop sha masterKey ecmBlob (att2 :: rest2) 0 =
          ((AcasCard.ecmLoop sha masterKey ecmBlob rest2 1).1,
           (AcasCard.ecmLoop sha masterKey ecmBlob rest2 1).2 + 1)) := by
  constructor
  · have hsb : att.ecmResp.isSuccess = false := by
      simp [ApduExchange.isSuccess, hsw]
    have hstn : ¬ att.ecmResp.status ≠ SCARD_S_SUCCESS := by
      simp [hst]
    simp only [AcasCard.ecmLoop, hA0, if_neg hstn, if_pos hsb]
  · intro att2 rest2 hsw2
    have hA0n : AcasCard.getA0AuthKcl sha masterKey att2.a0init att2.a0resp
        = none := by
      by_cases hst2 : att2.a0resp.status ≠ SCARD_S_SUCCESS
      · simp [AcasCard.getA0AuthKcl, if_pos hst2]
      · have hsb2 : att2.a0resp.isSuccess = false := by
          simp [ApduExchange.isSuccess, hsw2]
        simp [AcasCard.getA0AuthKcl, hst2, hsb2]
    exact ecmLoop_retry_step sha masterKey ecmBlob att2 rest2 0
      (Or.inl hA0n) (by omega)

/-- Witness for the amended C4 at concrete inputs: attRej34 (SW 0x6A88 on 34)
fails with no retry after one attempt, and attA0SwRej (SW 0x6700 on A0) is
retried, handing the remaining attempts to the loop with counter 1. -/
theorem acasCard_ecm_sw_handling_witness :
    AcasCard.ecmLoop sha0 mkSample blobSample [attRej34] 0 = (none, 1) ∧
    AcasCard.ecmLoop sha0 mkSample blobSample [attA0SwRej, attGood] 0 =
      ((AcasCard.ecmLoop sha0 mkSample blobSample [attGood] 1).1,
       (AcasCard.ecmLoop sha0 mkSample blobSample [attGood] 1).2 + 1) :=
  ⟨(acasCard_ecm_sw_handling sha0 mkSample blobSample attRej34 [] 0 kclSample
      (by decide) rfl (by decide)).1,
   (acasCard_ecm_sw_handling sha0 mkSample blobSample attRej34 [] 0 kclSample
      (by decide) rfl (by decide)).2 attA0SwRej [attGood] (by decide)⟩

/-- C5: when the requested key type differs from the last served one,
getDecryptionKey consults the 10-second bounded wait on queue emptiness: if
the queue did not empty within the bound it returns none rather than the
stale key, and whenever it does serve a key on a parity flip the queue had
become empty within the wait, so no key of the new parity is served while
ECMs are still pending.  The wait bound in the code is 10 seconds. -/
theorem acasHandler_parity_flip_wait (ecmReady : Bool)
    (lastT keyT : EncryptionFlag) (queueEmptied : Bool)
    (key : AcasCard.DecryptionKey) (hflip : lastT ≠ keyT) :
    (queueEmptied = false →
      AcasHandler.getDecryptionKey ecmReady lastT keyT queueEmptied key
        = none) ∧
    (∀ k, AcasHandler.getDecryptionKey ecmReady lastT keyT queueEmptied key
        = some k → queueEmptied = true) ∧
    AcasHandler.parityFlipWaitSeconds = 10 := by
  have hnone : queueEmptied = false →
      AcasHandler.getDecryptionKey ecmReady lastT keyT queueEmptied key
        = none := by
    intro hq
    subst hq
    by_cases her : ecmReady = false
    · simp [AcasHandler.getDecryptionKey, her]
    · simp [AcasHandler.getDecryptionKey, her, hflip]
  refine ⟨hnone, ?_, rfl⟩
  intro k hk
  by_cases hq : queueEmptied = false
  · rw [hnone hq] at hk
    cases hk
  · simp only [Bool.not_eq_false] at hq
    exact hq

/-- Witness for C5 at concrete inputs: last served EVEN, requested ODD, wait
timed out. -/
theorem acasHandler_parity_flip_wait_witness :
    (false = false →
      AcasHandler.getDecryptionKey true EncryptionFlag.EVEN
        EncryptionFlag.ODD false keySample = none) ∧
    (∀ k, AcasHandler.getDecryptionKey true EncryptionFlag.EVEN
        EncryptionFlag.ODD false keySample = some k → false = true) ∧
    AcasHandler.parityFlipWaitSeconds = 10 :=
  acasHandler_parity_flip_wait true EncryptionFlag.EVEN EncryptionFlag.ODD
    false keySample (by decide)

/-- C6 is a code bug: the guard of getDecryptionKey is the ecmReady flag,
which onEcm sets at enqueue time, before any key is published.  After an
onEcm intake whose card resolution fails (workerStep with result none pops
the queue and publishes nothing), the handler state has ecmReady true, an
empty queue and the default-initialized key pair, and getDecryptionKey then
serves that unpublished key, so decrypt returns true and transforms the
payload instead of returning false and leaving it unmodified. -/
theorem acasHandler_decrypt_before_key_bug :
    AcasHandler.onEcm [] [] false ecmSample = (ecmSample, [ecmSample], true) ∧
    AcasHandler.workerStep none [ecmSample] zeroKey = ([], zeroKey) ∧
    AcasHandler.getDecryptionKey true EncryptionFlag.EVEN EncryptionFlag.EVEN
      true zeroKey = some zeroKey.even ∧
    (AcasHandler.decrypt stubCipher true EncryptionFlag.EVEN true zeroKey 1 1
      EncryptionFlag.EVEN payloadSample).1 = true := by
  refine ⟨by decide, by decide, by decide, by decide⟩

/-- C7 counterexample: a packet with encryption flag UNSCRAMBLED is routed to
the odd key half by getDecryptionKey (the code serves the odd half for every
flag other than EVEN), and decrypt on such a packet returns true and (with
any payload-altering cipher, here stubCipher standing in for the external
AES-CTR engine) changes the payload bytes, so it is not a no-op. -/
theorem acasHandler_unscrambled_cex :
    AcasHandler.getDecryptionKey true EncryptionFlag.UNSCRAMBLED
      EncryptionFlag.UNSCRAMBLED true keySample = some keySample.odd ∧
    keySample.odd ≠ keySample.even ∧
    (AcasHandler.decrypt stubCipher true EncryptionFlag.UNSCRAMBLED true
      keySample 0 0 EncryptionFlag.UNSCRAMBLED payloadSample).1 = true ∧
    (AcasHandler.decrypt stubCipher true EncryptionFlag.UNSCRAMBLED true
      keySample 0 0 EncryptionFlag.UNSCRAMBLED payloadSample).2
      ≠ payloadSample := by
  refine ⟨by decide, by decide, by decide, by decide⟩

/-- C7 as amended: the EVEN flag selects the even half and every other flag,
UNSCRAMBLED included, selects the odd half; on an UNSCRAMBLED packet
decrypt therefore either finds no key (and only then leaves the payload
unchanged) or proceeds with the odd half; it is not a no-op by flag. -/
theorem acasHandler_unscrambled_routes_odd (ecmReady : Bool)
    (lastT : EncryptionFlag) (queueEmptied : Bool)
    (key : AcasCard.DecryptionKey) :
    AcasHandler.getDecryptionKey ecmReady lastT EncryptionFlag.UNSCRAMBLED
        queueEmptied key = none ∨
    AcasHandler.getDecryptionKey ecmReady lastT EncryptionFlag.UNSCRAMBLED
        queueEmptied key = some key.odd := by
  unfold AcasHandler.getDecryptionKey
  split
  · exact Or.inl rfl
  · split
    · exact Or.inl rfl
    · split
      · next h => exact absurd h (by decide)
      · exact Or.inr rfl

/-- C8 is a code bug: on a 34 response that reports success (SW 0x9000) with
a data field far shorter than the 0x06 + 32 bytes the slicing assumes (here
empty), AcasCard::ecm does not fail the call; it has no length check and
slices with unchecked iterator arithmetic, which in C++ reads past the end
of the data.  In this totalized embedding (take and drop truncate instead)
the call proceeds with the truncated fields and reports success with a
degenerate empty key, not the CardRejected failure the claim requires.  The
A0 path (acasCard.cpp lines 47-49) slices its response equally unchecked. -/
theorem acasCard_short_response_bug :
    AcasCard.ecm sha0 mkSample true blobSample [attShort34]
      = some { odd := [], even := [] } := by decide

/-- The defensive clamp never exceeds the spill-over area. -/
theorem clampRemaining_le (r : Nat) :
    IOThread.clampRemaining r ≤ IOThread.SPILL_OVER_AREA_SIZE := by
  unfold IOThread.clampRemaining
  split
  · exact le_refl _
  · omega

/-- The spill bytes pending when the producer loop stops never exceed the
spill-over area. -/
theorem threadFuncLoop_spill_le (consume : List Nat → Nat) :
    ∀ (fuel : Nat) (leftover stream : List Nat),
      (IOThread.threadFuncLoop consume fuel leftover stream).2.length
        ≤ IOThread.SPILL_OVER_AREA_SIZE := by
  intro fuel
  induction fuel with
  | zero =>
    intro leftover stream
    simp only [IOThread.threadFuncLoop, List.length_take]
    exact le_trans (Nat.min_le_left _ _) (clampRemaining_le _)
  | succ fuel ih =>
    intro leftover stream
    by_cases hst : stream = []
    · simp only [IOThread.threadFuncLoop, if_pos hst, List.length_take]
      exact le_trans (Nat.min_le_left _ _) (clampRemaining_le _)
    · simp only [IOThread.threadFuncLoop, if_neg hst]
      exact ih _ _

/-- Invariant of the producer loop: with a consumer that never reports more
than the spill-over area, the concatenation of the consumed prefixes
followed by the spill pending at EOF is exactly the carried leftover
followed by the stream. -/
theorem threadFuncLoop_flatten (consume : List Nat → Nat)
    (hc : ∀ v, consume v ≤ IOThread.SPILL_OVER_AREA_SIZE) :
    ∀ (fuel : Nat) (stream leftover : List Nat), stream.length ≤ fuel →
      leftover.length ≤ IOThread.SPILL_OVER_AREA_SIZE →
      (IOThread.threadFuncLoop consume fuel leftover stream).1.flatten
          ++ (IOThread.threadFuncLoop consume fuel leftover stream).2
        = leftover ++ stream := by
  intro fuel
  induction fuel with
  | zero =>
    intro stream leftover hs hl
    have hst : stream = [] := List.length_eq_zero.mp (Nat.le_zero.mp hs)
    subst hst
    have hcl : IOThread.clampRemaining leftover.length = leftover.length := by
      simp [IOThread.clampRemaining, Nat.not_lt.mpr hl]
    simp [IOThread.threadFuncLoop, hcl, List.take_length]
  | succ fuel ih =>
    intro stream leftover hs hl
    by_cases hst : stream = []
    · subst hst
      have hcl : IOThread.clampRemaining leftover.length = leftover.length := by
        simp [IOThread.clampRemaining, Nat.not_lt.mpr hl]
      simp [IOThread.threadFuncLoop, hcl, List.take_length]
    · have hcl : IOThread.clampRemaining leftover.length = leftover.length := by
        simp [IOThread.clampRemaining, Nat.not_lt.mpr hl]
      simp only [IOThread.threadFuncLoop, hcl, List.take_length, if_neg hst]
      set view := leftover ++ stream.take IOThread.NEW_DATA_AREA_SIZE with hview
      set r := min (consume view) view.length with hr
      have hrem : (view.drop (view.length - r)).length
          ≤ IOThread.SPILL_OVER_AREA_SIZE := by
        have h1 : r ≤ consume view := Nat.min_le_left _ _
        have h2 := hc view
        simp only [List.length_drop]
        omega
      have hlen : (stream.drop IOThread.NEW_DATA_AREA_SIZE).length ≤ fuel := by
        have hnd : 0 < IOThread.NEW_DATA_AREA_SIZE := by decide
        have hpos : 0 < stream.length := List.length_pos.mpr hst
        simp only [List.length_drop]
        omega
      have ihx := ih (stream.drop IOThread.NEW_DATA_AREA_SIZE)
        (view.drop (view.length - r)) hlen hrem
      simp only [List.flatten_cons]
      rw [List.append_assoc, ihx]
      rw [← List.append_assoc, List.take_append_drop]
      rw [hview, List.append_assoc, List.take_append_drop]

/-- C9 counterexample: the claim is false on the code at EOF.  With the
3-byte input stream [1, 2, 3] and a consumer that always reports a 1-byte
remaining view, the consumed prefixes concatenate to [1, 2]: the pending
spill byte [3] is dropped when the zero-byte read at EOF pushes the empty
sentinel and stops the loop, so the concatenation does not equal the input
stream. -/
theorem ioThread_eof_spill_loss_cex :
    (IOThread.threadFunc consumeOne [1, 2, 3]).1.flatten = [1, 2] ∧
    (IOThread.threadFunc consumeOne [1, 2, 3]).2 = [3] ∧
    (IOThread.threadFunc consumeOne [1, 2, 3]).1.flatten ≠ [1, 2, 3] := by
  refine ⟨by decide, by decide, by decide⟩

/-- C9 as amended: across an IOThread execution over any finite input
stream, with a consumer that never reports a remaining view longer than
SPILL_OVER_AREA_SIZE, the concatenation of the consumed prefixes followed by
the spill-over bytes still pending at EOF equals the original input stream:
no byte is duplicated or lost mid-stream, at most SPILL_OVER_AREA_SIZE bytes
are re-presented between consecutive iterations, and the concatenation
equals the full stream exactly when the final pending spill is empty;
spill-over bytes still pending when the stream reaches EOF are dropped with
the empty sentinel, not re-presented. -/
theorem ioThread_stream_reassembly (consume : List Nat → Nat)
    (hc : ∀ v, consume v ≤ IOThread.SPILL_OVER_AREA_SIZE)
    (stream : List Nat) :
    (IOThread.threadFunc consume stream).1.flatten
        ++ (IOThread.threadFunc consume stream).2 = stream ∧
    (IOThread.threadFunc consume stream).2.length
        ≤ IOThread.SPILL_OVER_AREA_SIZE := by
  constructor
  · have h := threadFuncLoop_flatten consume hc stream.length stream []
      (le_refl _) (by simp [IOThread.SPILL_OVER_AREA_SIZE])
    simpa [IOThread.threadFunc] using h
  · exact threadFuncLoop_spill_le consume stream.length [] stream

/-- Witness for the amended C9 at concrete inputs: a consumer that consumes
everything it is shown reassembles the stream [1, 2] with empty final
spill. -/
theorem ioThread_stream_reassembly_witness :
    (IOThread.threadFunc consumeAll [1, 2]).1.flatten
        ++ (IOThread.threadFunc consumeAll [1, 2]).2 = [1, 2] ∧
    (IOThread.threadFunc consumeAll [1, 2]).2.length
        ≤ IOThread.SPILL_OVER_AREA_SIZE :=
  ioThread_stream_reassembly consumeAll (fun _ => Nat.zero_le _) [1, 2]

/-- C10: the leftover copy of one producer iteration is clamped to at most
SPILL_OVER_AREA_SIZE bytes (a longer remaining view is cut to
SPILL_OVER_AREA_SIZE, so the copied portion of any remaining view fits the
spill-over area), and the clamped copy plus a subsequent read of up to
NEW_DATA_AREA_SIZE bytes stays within the BUFFER_SIZE byte buffer. -/
theorem ioThread_clamp_bound (r b : Nat) (l : List Nat)
    (hb : b ≤ IOThread.NEW_DATA_AREA_SIZE) :
    IOThread.clampRemaining r ≤ IOThread.SPILL_OVER_AREA_SIZE ∧
    IOThread.clampRemaining r + b ≤ IOThread.BUFFER_SIZE ∧
    (l.take (IOThread.clampRemaining l.length)).length
      ≤ IOThread.SPILL_OVER_AREA_SIZE := by
  refine ⟨clampRemaining_le r, ?_, ?_⟩
  · have h1 := clampRemaining_le r
    unfold IOThread.BUFFER_SIZE
    omega
  · simp only [List.length_take]
    exact le_trans (Nat.min_le_left _ _) (clampRemaining_le _)

/-- Witness for C10 at concrete inputs: a 2 MiB remaining view is clamped to
1 MiB, and together with a full 16 MiB read stays within the 17 MiB
buffer. -/
theorem ioThread_clamp_bound_witness :
    IOThread.clampRemaining 2097152 ≤ IOThread.SPILL_OVER_AREA_SIZE ∧
    IOThread.clampRemaining 2097152 + 16777216 ≤ IOThread.BUFFER_SIZE ∧
    (List.take (IOThread.clampRemaining (List.replicate 5 0).length)
        (List.replicate 5 (0 : Nat))).length
      ≤ IOThread.SPILL_OVER_AREA_SIZE :=
  ioThread_clamp_bound 2097152 16777216 (List.replicate 5 0) (by decide)
